import Mathlib

/-!
Shallow embedding of the "Fill Selection" Maya tool
(`src/python/cgtools/maya/ui/fill_selection.py`) and of the undo-chunk
helper (`src/python/cgtools/maya/undo.py`) of the cgtools repository.

Maya itself is an external collaborator.  Its scene state is modelled
explicitly (current selection, per-shape construction history, UV sets and
their contents, select mode/type, callback and scriptJob registries, and
the deferred-execution queue), and every `cmds` / OpenMaya call the source
performs is embedded as a small state transformer with the documented
behaviour of that call.  Python dicts are insertion-ordered association
lists.  Python sets are modelled as first-occurrence-ordered duplicate-free
lists; no theorem below depends on the iteration order of a set, only on
membership, emptiness and size.
-/

namespace FillSel

/-- The `ComponentType` enum of fill_selection.py: polygon component types
that can be produced. -/
inductive ComponentType where
  | edge
  | face
  | vertex
deriving DecidableEq

/-- The `EdgesFrom` enum of fill_selection.py: how non-edge selections are
converted to edges. -/
inductive EdgesFrom where
  | all
  | contained
  | perimeter
deriving DecidableEq

/-- The `ExitOn` enum of fill_selection.py: when the temporary fill
selection is converted. -/
inductive ExitOn where
  | enterKey
  | reinvocation
  | selection
deriving DecidableEq

/-- The `Config` enum of fill_selection.py, with each member's default.
`getValue` reads an optionVar at call time; a run of the tool with a fixed
configuration is modelled by passing one `Config` value through. -/
structure Config where
  convertFacesTo : EdgesFrom := EdgesFrom.perimeter
  convertVerticesTo : EdgesFrom := EdgesFrom.contained
  convertVertexFacesTo : EdgesFrom := EdgesFrom.all
  exitCondition : ExitOn := ExitOn.selection
  exitOnSelectModeTypeChange : Bool := true
  outputType : ComponentType := ComponentType.face
  useExistingSeams : Bool := false
deriving DecidableEq

/-- The `_SessionData` dataclass.  `shapeToEdges` (a Python dict) is an
insertion-ordered association list; the handle collections store Maya
callback IDs and scriptJob numbers as naturals. -/
structure SessionData where
  callbackIDs : List Nat := []
  shapeToEdges : List (String × List String) := []
  history : List (List String) := []
  jobNumbers : List Nat := []
  previousUVSets : List String := []
  shapes : List String := []
  selection : List String := []
deriving DecidableEq

/-- The `_SessionData.__bool__` method: a session is active iff any field
is non-empty. -/
def SessionData.isActive (d : SessionData) : Bool :=
  !d.callbackIDs.isEmpty || !d.shapeToEdges.isEmpty || !d.history.isEmpty ||
    !d.jobNumbers.isEmpty || !d.previousUVSets.isEmpty || !d.shapes.isEmpty ||
    !d.selection.isEmpty

/-- Iteration over the keys of the `shapeToEdges` dict (`.keys()`). -/
def sessionShapes (d : SessionData) : List String :=
  d.shapeToEdges.map Prod.fst

/-- Flags passed to `cmds.polyListComponentConversion`.  Unmentioned flags
default to false, as in the Python keyword-argument calls. -/
structure PlccFlags where
  fromFace : Bool := false
  fromVertex : Bool := false
  fromVertexFace : Bool := false
  toEdge : Bool := false
  toFace : Bool := false
  toVertex : Bool := false
  internal : Bool := false
  border : Bool := false
  vertexFaceAllEdges : Bool := false
deriving DecidableEq

/-- The read-only scene-interpretation part of the Maya host: which nodes
are meshes/transforms, the shape children of a transform, the parents of
shapes, the component filters and the component-conversion primitive.  All
of these are opaque collaborators of the source and are therefore
parameters of the model. -/
structure Host where
  /-- `cmds.filterExpand(expand=False, selectionMask=m)` applied to the
  given selection (`31` vertices, `32` edges, `34` faces, `70`
  vertex faces); returns `[]` for a `None` result. -/
  filterExpand : List String → Nat → List String
  /-- `cmds.polyListComponentConversion(selection, **flags)`. -/
  plcc : List String → PlccFlags → List String
  /-- `cmds.ls(selection=True, objectsOnly=True)` applied to the given
  selection. -/
  lsObjects : List String → List String
  /-- `cmds.objectType(o, isAType="mesh")`. -/
  isMesh : String → Bool
  /-- `cmds.objectType(o, isAType="transform")`. -/
  isTransform : String → Bool
  /-- `cmds.listRelatives(t, shapes=True, noIntermediate=True, path=True,
  type="mesh")`, with `None` mapped to `[]` (the `or []` in
  `_getMeshShapes`). -/
  meshShapes : String → List String
  /-- `cmds.listRelatives(s, parent=True, path=True)`, one parent per
  shape. -/
  parentOf : String → String

/-- The mutable Maya scene state touched by the tool. -/
structure Scene where
  /-- The current selection, as returned by `cmds.ls(selection=True)`. -/
  selection : List String
  /-- `cmds.listHistory(shape, pruneDagObjects=True) or []`: the non-DAG
  construction-history nodes currently attached to each shape. -/
  historyOf : String → List String
  /-- The UV set currently marked "current" on each shape
  (`cmds.polyUVSet(shape, query=True, currentUVSet=True)`). -/
  currentUV : String → String
  /-- The stored data of each shape's named UV sets (used to observe
  whether a copy or a projection reached a set). -/
  uvContent : String → String → List String
  /-- `cmds.selectMode(query=True, object=True)`. -/
  objectMode : Bool
  /-- The select types enabled in component mode (`cmds.selectType`). -/
  componentTypes : List String
  /-- The select types enabled for object-component selection
  (`cmds.selectType(objectComponent=True, ...)`). -/
  objectComponentTypes : List String
  /-- The objects on the hilite list (`cmds.hilite`). -/
  hilited : List String
  /-- Fresh-name counter for nodes created by history-building commands. -/
  nextNode : Nat
  /-- `cmds.undoInfo(query=True, state=True)`. -/
  undoEnabled : Bool

/-- Observable steps recorded while the embedded code runs, used to state
ordering properties. -/
inductive Event where
  | openChunk (name : String)
  | closeChunk (name : String)
  | selected (sel : List String)
  | cleanUpStarted
  | clearStarted
  | deleted (nodes : List String)
deriving DecidableEq

/-- A task handed to `cmds.evalDeferred`: the source defers exactly
`_cleanUp` and `_sessionData.clear`. -/
inductive DeferredTask where
  | cleanUp
  | clearSession
deriving DecidableEq

/-- The whole process state: host behaviour, scene, the module-level
`_sessionData` singleton, the callback/scriptJob registries with their
id allocators and release records, the deferred-execution queue, emitted
warnings, and the event trace. -/
structure ProcState where
  host : Host
  scene : Scene
  session : SessionData
  nextCallbackID : Nat
  nextJobNumber : Nat
  /-- Maya callbacks currently registered (`om.MSceneMessage.addCallback`
  minus `om.MMessage.removeCallback`). -/
  liveCallbacks : List Nat
  /-- ScriptJobs currently registered. -/
  liveJobs : List Nat
  /-- Every id ever passed to `om.MMessage.removeCallback`, in order. -/
  removedCallbacks : List Nat
  /-- Every job number ever passed to `cmds.scriptJob(kill=...)`. -/
  killedJobs : List Nat
  /-- The run-after-current-callback queue fed by `cmds.evalDeferred`. -/
  deferred : List DeferredTask
  /-- Messages emitted through `cmds.warning`. -/
  warnings : List String
  trace : List Event

/-- Appends an observable event to the trace. -/
def pushEvent (st : ProcState) (e : Event) : ProcState :=
  { st with trace := st.trace ++ [e] }

/-- The `cmds.warning` call. -/
def warn (st : ProcState) (msg : String) : ProcState :=
  { st with warnings := st.warnings ++ [msg] }

/-- The `cmds.select` call: replaces the selection. -/
def select (st : ProcState) (sel : List String) : ProcState :=
  { st with scene := { st.scene with selection := sel },
            trace := st.trace ++ [Event.selected sel] }

/-- The `cmds.evalDeferred` call: enqueues a task to run after the current
callback returns. -/
def defer (st : ProcState) (t : DeferredTask) : ProcState :=
  { st with deferred := st.deferred ++ [t] }

/-- `om.MSceneMessage.addCallback`: returns a fresh callback id and
registers it. -/
def addCallback (st : ProcState) : Nat × ProcState :=
  (st.nextCallbackID,
    { st with nextCallbackID := st.nextCallbackID + 1,
              liveCallbacks := st.liveCallbacks ++ [st.nextCallbackID] })

/-- `om.MMessage.removeCallback`: deregisters an id and records the
release. -/
def removeCallback (st : ProcState) (cid : Nat) : ProcState :=
  { st with liveCallbacks := st.liveCallbacks.erase cid,
            removedCallbacks := st.removedCallbacks ++ [cid] }

/-- `cmds.scriptJob(event=(..., ...))`: returns a fresh job number and
registers it. -/
def newJob (st : ProcState) : Nat × ProcState :=
  (st.nextJobNumber,
    { st with nextJobNumber := st.nextJobNumber + 1,
              liveJobs := st.liveJobs ++ [st.nextJobNumber] })

/-- `cmds.scriptJob(kill=n)`: deregisters a job number and records the
kill. -/
def killJob (st : ProcState) (n : Nat) : ProcState :=
  { st with liveJobs := st.liveJobs.erase n,
            killedJobs := st.killedJobs ++ [n] }

/-- `cmds.delete(nodes)`: removes the given nodes from the scene (hence
from every construction history listing them). -/
def deleteNodes (st : ProcState) (nodes : List String) : ProcState :=
  { st with
    scene := { st.scene with
      historyOf := fun sh =>
        (st.scene.historyOf sh).filter (fun n => decide (n ∉ nodes)) },
    trace := st.trace ++ [Event.deleted nodes] }

/-- `cmds.polyUVSet(shape, edit/currentUVSet=True, uvSet=uvSet)` and the
restoration call in `_cleanUp`: marks the named UV set current. -/
def setCurrentUV (st : ProcState) (shape uvSet : String) : ProcState :=
  { st with scene := { st.scene with
      currentUV := fun sh => if sh = shape then uvSet else st.scene.currentUV sh } }

/-- `cmds.polyUVSet(shape, create=True, uvSet=name)`: creates a fresh,
empty UV set of that name on the shape (and does not change which set is
current). -/
def createUVSet (st : ProcState) (shape uvName : String) : ProcState :=
  { st with scene := { st.scene with
      uvContent := fun sh uv =>
        if sh = shape ∧ uv = uvName then [] else st.scene.uvContent sh uv } }

/-- `cmds.polyUVSet(shape, copy=True, newUVSet=newSet)`: per the Maya
command reference, when no `uvSet` source flag is given the **current** UV
set is the copy source; its data is written into `newSet`. -/
def copyCurrentUVInto (st : ProcState) (shape newSet : String) : ProcState :=
  { st with scene := { st.scene with
      uvContent := fun sh uv =>
        if sh = shape ∧ uv = newSet then
          st.scene.uvContent shape (st.scene.currentUV shape)
        else st.scene.uvContent sh uv } }

/-- Fresh names for construction-history nodes created during the
session. -/
def newNodeName (n : Nat) : String :=
  "node" ++ Nat.repr n

/-- `cmds.polyPlanarProjection(shape)`: adds a construction-history node
and overwrites the shape's current UV set with a seam-free projection. -/
def polyPlanarProjection (st : ProcState) (shape : String) : ProcState :=
  { st with scene := { st.scene with
      nextNode := st.scene.nextNode + 1,
      historyOf := fun sh =>
        if sh = shape then st.scene.historyOf sh ++ [newNodeName st.scene.nextNode]
        else st.scene.historyOf sh,
      uvContent := fun sh uv =>
        if sh = shape ∧ uv = st.scene.currentUV shape then ["planarProjection"]
        else st.scene.uvContent sh uv } }

/-- Python's `str.rpartition(".")` on the character list, keeping the text
before and after the last dot. -/
def rpartChars : List Char → Option (List Char × List Char)
  | [] => none
  | c :: rest =>
    match rpartChars rest with
    | some (a, b) => some (c :: a, b)
    | none => if c = '.' then some ([], rest) else none

/-- Python's `edgeRange.rpartition(".")`, reduced to the two components the
source uses: `("" , s)` when there is no dot, otherwise the text before and
after the last dot. -/
def rpartitionDot (s : String) : String × String :=
  match rpartChars s.data with
  | some (a, b) => (String.mk a, String.mk b)
  | none => ("", s)

/-- `cmds.polyMapCut(edges)`: cuts the current UV set of the shape owning
the given edges, adding a construction-history node to that shape. -/
def polyMapCut (st : ProcState) (edges : List String) : ProcState :=
  match edges with
  | [] => st
  | e :: _ =>
    let shape := (rpartitionDot e).1
    { st with scene := { st.scene with
        nextNode := st.scene.nextNode + 1,
        historyOf := fun sh =>
          if sh = shape then st.scene.historyOf sh ++ [newNodeName st.scene.nextNode]
          else st.scene.historyOf sh } }

/-- The `undoChunk` decorator of undo.py applied to a (non-raising) state
transformer: queries the undo-queue state once, opens a chunk when the
queue is enabled, runs the body, and closes the chunk when it was opened. -/
def undoChunkWrapped (name : String) (f : ProcState → ProcState)
    (st : ProcState) : ProcState :=
  let undoEnabled := st.scene.undoEnabled
  let st := if undoEnabled then pushEvent st (Event.openChunk name) else st
  let st := f st
  if undoEnabled then pushEvent st (Event.closeChunk name) else st

/-- The `_changeSelectType` function (fill_selection.py lines 264-283):
switches to the given select type, preserving the user's selection mode,
and hilites the parents of the given shapes when any are supplied. -/
def changeSelectType (st : ProcState) (shapes : Option (List String))
    (type_ : String) : ProcState :=
  let st :=
    if st.scene.objectMode then
      { st with scene := { st.scene with objectComponentTypes := [type_] } }
    else st
  let st :=
    { st with scene := { st.scene with
        componentTypes :=
          if type_ ∈ st.scene.componentTypes then st.scene.componentTypes
          else st.scene.componentTypes ++ [type_] } }
  match shapes with
  | none => st
  | some shs =>
    if shs = [] then st
    else
      { st with scene := { st.scene with
          hilited := st.scene.hilited ++ shs.map st.host.parentOf } }

/-- First-occurrence deduplication, the order in which a Python set built
by successive `add`/`update` calls is modelled here. -/
def dedupKeepAux (seen : List String) : List String → List String
  | [] => []
  | x :: xs =>
    if x ∈ seen then dedupKeepAux seen xs
    else x :: dedupKeepAux (seen ++ [x]) xs

/-- First-occurrence deduplication of a list. -/
def dedupKeep (l : List String) : List String :=
  dedupKeepAux [] l

/-- The `_getSelectedShapes` function: the selected objects filtered down
to mesh shapes, with transforms resolved to their mesh shape children. -/
def getSelectedShapes (st : ProcState) : List String :=
  let objects := dedupKeep (st.host.lsObjects st.scene.selection)
  dedupKeep (objects.foldl
    (fun acc obj =>
      let acc := if st.host.isMesh obj then acc ++ [obj] else acc
      if st.host.isTransform obj then acc ++ st.host.meshShapes obj else acc)
    [])

/-- The per-edge computation of `_partitionEdgesByShape` (lines 479-488):
split the component string at the last dot, resolve a transform to its
first mesh shape, and rebuild the component name on the shape.  Returns
the owning shape and the rebuilt edge name.  The source indexes
`_getMeshShapes(object_)[0]`, an IndexError when a transform has no mesh
shape; the embedding totalises that lookup with the transform itself, a
case no theorem below relies on. -/
def rewrittenEdge (st : ProcState) (edgeRange : String) : String × String :=
  let p := rpartitionDot edgeRange
  let object_ :=
    if st.host.isTransform p.1 then (st.host.meshShapes p.1).headD p.1
    else p.1
  (object_, object_ ++ "." ++ p.2)

/-- The `mapping.setdefault(k, []).append(v)` step on an insertion-ordered
dict. -/
def insertAppend (m : List (String × List String)) (k v : String) :
    List (String × List String) :=
  match m with
  | [] => [(k, [v])]
  | (k₁, vs) :: rest =>
    if k₁ = k then (k₁, vs ++ [v]) :: rest
    else (k₁, vs) :: insertAppend rest k v

/-- Lookup in the insertion-ordered dict, with `[]` for a missing key. -/
def lookupEdges (m : List (String × List String)) (k : String) : List String :=
  match m with
  | [] => []
  | (k₁, vs) :: rest => if k₁ = k then vs else lookupEdges rest k

/-- One iteration of `_partitionEdgesByShape`'s loop. -/
def partitionStep (st : ProcState) (mapping : List (String × List String))
    (edgeRange : String) : List (String × List String) :=
  insertAppend mapping (rewrittenEdge st edgeRange).1 (rewrittenEdge st edgeRange).2

/-- The `_partitionEdgesByShape` function: partitions edges by the shape
they belong to, in encounter order. -/
def partitionEdgesByShape (st : ProcState) (edges : List String) :
    List (String × List String) :=
  edges.foldl (partitionStep st) []

/-- The `_getEdgesFromSelectedFaces` function. -/
def getEdgesFromSelectedFaces (st : ProcState) (cfg : Config) : List String :=
  let selection := st.host.filterExpand st.scene.selection 34
  match cfg.convertFacesTo with
  | EdgesFrom.all => st.host.plcc selection { fromFace := true, toEdge := true }
  | EdgesFrom.contained =>
    st.host.plcc selection { fromFace := true, toEdge := true, internal := true }
  | EdgesFrom.perimeter =>
    st.host.plcc selection { fromFace := true, toEdge := true, border := true }

/-- The `_getEdgesFromSelectedVertices` function. -/
def getEdgesFromSelectedVertices (st : ProcState) (cfg : Config) : List String :=
  let selection := st.host.filterExpand st.scene.selection 31
  match cfg.convertVerticesTo with
  | EdgesFrom.all => st.host.plcc selection { fromVertex := true, toEdge := true }
  | EdgesFrom.contained =>
    st.host.plcc selection { fromVertex := true, toEdge := true, internal := true }
  | EdgesFrom.perimeter =>
    st.host.plcc
      (st.host.plcc selection { fromVertex := true, toFace := true })
      { fromFace := true, toEdge := true, border := true }

/-- The `_getEdgesFromSelectedVertexFaces` function. -/
def getEdgesFromSelectedVertexFaces (st : ProcState) (cfg : Config) : List String :=
  let selection := st.host.filterExpand st.scene.selection 70
  match cfg.convertVertexFacesTo with
  | EdgesFrom.all =>
    st.host.plcc selection
      { fromVertexFace := true, toEdge := true, vertexFaceAllEdges := true }
  | EdgesFrom.contained =>
    st.host.plcc selection { fromVertexFace := true, toEdge := true, internal := true }
  | EdgesFrom.perimeter =>
    st.host.plcc
      (st.host.plcc selection { fromVertexFace := true, toFace := true })
      { fromFace := true, toEdge := true, border := true }

/-- The `_getEdgesFromSelection` function: raw edges plus the converted
faces, vertices and vertex faces, partitioned by shape. -/
def getEdgesFromSelection (st : ProcState) (cfg : Config) :
    List (String × List String) :=
  let edges := st.host.filterExpand st.scene.selection 32
    ++ getEdgesFromSelectedFaces st cfg
    ++ getEdgesFromSelectedVertices st cfg
    ++ getEdgesFromSelectedVertexFaces st cfg
  partitionEdgesByShape st edges

/-- The `_prepareUVSets` function (lines 493-521): stores the current UV
set names, creates a "fillSelectionMap" set per shape, marks each new set
current and then either runs the copy call or a planar projection,
returning the previous and the new UV set names. -/
def prepareUVSets (st : ProcState) (cfg : Config) (shapes : List String) :
    (List String × List String) × ProcState :=
  let previousUVSets := shapes.map st.scene.currentUV
  let workingUVSets := shapes.map (fun _ => "fillSelectionMap")
  let st := shapes.foldl (fun s sh => createUVSet s sh "fillSelectionMap") st
  let st := (shapes.zip workingUVSets).foldl
    (fun s p =>
      let s := setCurrentUV s p.1 p.2
      if cfg.useExistingSeams then copyCurrentUVInto s p.1 p.2
      else polyPlanarProjection s p.1)
    st
  ((previousUVSets, workingUVSets), st)

/-- One iteration of `_cleanUp`'s history-diff loop: delete the nodes
present on the shape now but absent from its snapshot. -/
def delStep (s : ProcState) (p : String × List String) : ProcState :=
  deleteNodes s ((s.scene.historyOf p.1).filter (fun n => decide (n ∉ p.2)))

/-- The history-diff loop of `_cleanUp` over the zipped shape/snapshot
pairs. -/
def delLoop (pairs : List (String × List String)) (s : ProcState) : ProcState :=
  pairs.foldl delStep s

/-- One iteration of `_cleanUp`'s UV-set restoration loop. -/
def uvStep (s : ProcState) (q : String × String) : ProcState :=
  setCurrentUV s q.1 q.2

/-- The UV-set restoration loop of `_cleanUp` over the zipped
shape/previous-set pairs. -/
def uvLoop (qs : List (String × String)) (s : ProcState) : ProcState :=
  qs.foldl uvStep s

/-- The body of `_cleanUp` (lines 286-304): preserves the selection into
the session, deletes the nodes each session shape gained since its
snapshot, and re-marks each shape's previous UV set current.  Session data
is not cleared. -/
def cleanUpBody (st : ProcState) : ProcState :=
  let st := pushEvent st Event.cleanUpStarted
  let st := { st with session := { st.session with selection := st.scene.selection } }
  let st := delLoop ((sessionShapes st.session).zip st.session.history) st
  uvLoop ((sessionShapes st.session).zip st.session.previousUVSets) st

/-- The `_cleanUp` function, wrapped in its undo chunk. -/
def cleanUp (st : ProcState) : ProcState :=
  undoChunkWrapped "Clean up changes from fill selection" cleanUpBody st

/-- The `_SessionData.clear` method: removes every stored callback, kills
every stored scriptJob, and empties all fields. -/
def clearSession (st : ProcState) : ProcState :=
  let st := pushEvent st Event.clearStarted
  let st := st.session.callbackIDs.foldl (fun s cid => removeCallback s cid) st
  let st := st.session.jobNumbers.foldl (fun s n => killJob s n) st
  { st with session := {} }

/-- The body of `_restoreSession` (lines 524-541): prepares the UV sets
for the session shapes, applies the cuts shape by shape, switches to the
UV-shell select type and restores any preserved selection. -/
def restoreSessionBody (st : ProcState) (cfg : Config) : ProcState :=
  let r := prepareUVSets st cfg (sessionShapes st.session)
  let st := r.2
  let st := { st with session := { st.session with previousUVSets := r.1.1 } }
  let st := st.session.shapeToEdges.foldl (fun s kv => polyMapCut s kv.2) st
  let st := changeSelectType st (some (sessionShapes st.session)) "meshUVShell"
  if st.session.selection = [] then st else select st st.session.selection

/-- The `_restoreSession` function, wrapped in its undo chunk. -/
def restoreSession (st : ProcState) (cfg : Config) : ProcState :=
  undoChunkWrapped "Prepare the scene for fill selection"
    (fun s => restoreSessionBody s cfg) st

/-- The body of `finalize` (lines 231-252): converts the selection to the
configured output component type, switches the select type accordingly,
defers `_cleanUp`, issues the select call, and defers the session clear. -/
def finalizeBody (st : ProcState) (cfg : Config) : ProcState :=
  let selection := st.scene.selection
  let r :=
    match cfg.outputType with
    | ComponentType.edge =>
      (st.host.plcc selection { toEdge := true },
        changeSelectType st none "polymeshEdge")
    | ComponentType.face =>
      (st.host.plcc selection { toFace := true },
        changeSelectType st none "polymeshFace")
    | ComponentType.vertex =>
      (st.host.plcc selection { toVertex := true },
        changeSelectType st none "polymeshVtxFace")
  let st := defer r.2 DeferredTask.cleanUp
  let st := select st r.1
  defer st DeferredTask.clearSession

/-- The `finalize` entry point, wrapped in its undo chunk. -/
def finalize (st : ProcState) (cfg : Config) : ProcState :=
  undoChunkWrapped "Convert the fill selection" (fun s => finalizeBody s cfg) st

/-- Specification-side description of the synchronous portion of
`finalize`: the selection conversion, the select-type change and the
select call, with no deferral.  Used to state the ordering guarantee of
the deferred steps by comparison with `finalize` followed by a queue
drain. -/
def finalizeSynchronousSpec (st : ProcState) (cfg : Config) : ProcState :=
  undoChunkWrapped "Convert the fill selection"
    (fun s =>
      let selection := s.scene.selection
      let r :=
        match cfg.outputType with
        | ComponentType.edge =>
          (s.host.plcc selection { toEdge := true },
            changeSelectType s none "polymeshEdge")
        | ComponentType.face =>
          (s.host.plcc selection { toFace := true },
            changeSelectType s none "polymeshFace")
        | ComponentType.vertex =>
          (s.host.plcc selection { toVertex := true },
            changeSelectType s none "polymeshVtxFace")
      select r.2 r.1)
    st

/-- The `_startSession` function (lines 544-648): raises
NotImplementedError for the enter-key exit condition; otherwise registers
the exit-condition scriptJobs and the three scene callbacks, then stores
the new handle lists into the session (replacing whatever was there). -/
def startSession (st : ProcState) (cfg : Config) : ProcState × Option String :=
  if cfg.exitCondition = ExitOn.enterKey then
    (st, some "NotImplementedError: enter key exit condition")
  else
    let r :=
      if cfg.exitCondition = ExitOn.selection then
        let j := newJob st
        ([j.1], j.2)
      else ([], st)
    let r :=
      if cfg.exitOnSelectModeTypeChange then
        let j₁ := newJob r.2
        let j₂ := newJob j₁.2
        (r.1 ++ [j₁.1, j₂.1], j₂.2)
      else r
    let j₃ := newJob r.2
    let jobNumbers := r.1 ++ [j₃.1]
    let c₁ := addCallback j₃.2
    let c₂ := addCallback c₁.2
    let c₃ := addCallback c₂.2
    let callbackIDs := [c₁.1, c₂.1, c₃.1]
    ({ c₃.2 with session := { c₃.2.session with
        callbackIDs := callbackIDs, jobNumbers := jobNumbers } }, none)

/-- The `fillSelection` entry point (lines 194-228).  The second component
reports a propagated NotImplementedError, with the module state at the
point of the raise. -/
def fillSelection (st : ProcState) (cfg : Config) : ProcState × Option String :=
  if st.session.isActive = true ∧ cfg.exitCondition = ExitOn.reinvocation then
    (finalize st cfg, none)
  else
    let shapes := getSelectedShapes st
    if shapes = [] then
      (warn st "Please select a polygon mesh or its components.", none)
    else
      let history := shapes.map (fun sh => st.scene.historyOf sh)
      let shapeToEdges := getEdgesFromSelection st cfg
      let st := { st with session := { st.session with
        history := history, shapeToEdges := shapeToEdges } }
      let st := restoreSession st cfg
      startSession st cfg

/-- Runs one task taken off the deferred queue. -/
def runTask (st : ProcState) : DeferredTask → ProcState
  | DeferredTask.cleanUp => cleanUp st
  | DeferredTask.clearSession => clearSession st

/-- Drains the run-after-current-callback queue in FIFO order.  The two
tasks the source ever defers enqueue nothing themselves, so a single pass
empties the queue. -/
def drainDeferred (st : ProcState) : ProcState :=
  st.deferred.foldl runTask { st with deferred := [] }

/-- The select type `finalize` enables for each configured output
component type (specification-side name for the literals at lines
238-246). -/
def outputSelectType : ComponentType → String
  | ComponentType.edge => "polymeshEdge"
  | ComponentType.face => "polymeshFace"
  | ComponentType.vertex => "polymeshVtxFace"

/-- The conversion flags `finalize` passes for each configured output
component type. -/
def outputConvFlags : ComponentType → PlccFlags
  | ComponentType.edge => { toEdge := true }
  | ComponentType.face => { toFace := true }
  | ComponentType.vertex => { toVertex := true }

/-- A host on which every query yields nothing and component conversion is
the identity; concrete scenarios below override individual fields. -/
def inertHost : Host where
  filterExpand := fun _ _ => []
  plcc := fun sel _ => sel
  lsObjects := fun _ => []
  isMesh := fun _ => false
  isTransform := fun _ => false
  meshShapes := fun _ => []
  parentOf := fun s => s

/-- A quiet scene used as the base of the concrete scenarios. -/
def baseScene : Scene where
  selection := []
  historyOf := fun _ => []
  currentUV := fun _ => "map1"
  uvContent := fun _ _ => []
  objectMode := false
  componentTypes := []
  objectComponentTypes := []
  hilited := []
  nextNode := 0
  undoEnabled := true

/-- A fresh process state (Idle session, no registrations). -/
def mkState (h : Host) (sc : Scene) : ProcState where
  host := h
  scene := sc
  session := {}
  nextCallbackID := 0
  nextJobNumber := 0
  liveCallbacks := []
  liveJobs := []
  removedCallbacks := []
  killedJobs := []
  deferred := []
  warnings := []
  trace := []

/-- A scene whose selection is the transform `pCube1` of the mesh shape
`pCubeShape1`, with no component selection. -/
def objectOnlyHost : Host :=
  { inertHost with
    lsObjects := fun _ => ["pCube1"],
    isTransform := fun o => o = "pCube1",
    meshShapes := fun o => if o = "pCube1" then ["pCubeShape1"] else [] }

/-- The process state for the object-only-selection scenario. -/
def objectOnlyState : ProcState :=
  mkState objectOnlyHost
    { baseScene with selection := ["pCube1"], historyOf := fun _ => ["origNode"] }

/-- A host for a scene in which the mesh shape `s` has its edge `s.e[1]`
selected. -/
def edgeSelHost : Host :=
  { inertHost with
    lsObjects := fun _ => ["s"],
    isMesh := fun o => o = "s",
    filterExpand := fun _ m => if m = 32 then ["s.e[1]"] else [] }

/-- The process state for the edge-selection scenario. -/
def edgeSelState : ProcState :=
  mkState edgeSelHost
    { baseScene with selection := ["s.e[1]"], historyOf := fun _ => ["origNode"] }

/-- A scene in which shape `s` has current UV set `map1` holding seam
data. -/
def seamState : ProcState :=
  mkState inertHost
    { baseScene with
      uvContent := fun sh uv => if sh = "s" ∧ uv = "map1" then ["seamData"] else [] }

/-- The configuration with the seam-preservation flag enabled. -/
def seamCfg : Config :=
  { useExistingSeams := true }

/-- A state with an active session (one shape with a recorded cut edge)
but nothing selected in the scene. -/
def activeState : ProcState :=
  { mkState inertHost baseScene with
    session := { shapeToEdges := [("s", ["s.e[1]"])] } }

/-- The configuration whose exit condition is "reinvocation". -/
def reinvokeCfg : Config :=
  { exitCondition := ExitOn.reinvocation }

/-- A state whose component-mode select type is the edge type, to observe
what `finalize` does to the select type. -/
def edgeTypeState : ProcState :=
  mkState inertHost { baseScene with componentTypes := ["polymeshEdge"] }

/-- The configuration whose output component type is VERTEX. -/
def vertexCfg : Config :=
  { outputType := ComponentType.vertex }

/-- Events recorded by `cmds.undoInfo` chunk manipulation (undo.py
model). -/
inductive UndoEvent where
  | opened (name : String)
  | closed (name : String)
deriving DecidableEq

/-- The Maya state seen by undo.py: the undo-queue enablement flag, the
chunk operations issued so far, and the rest of the scene, abstract. -/
structure UndoState (σ : Type) where
  undoEnabled : Bool
  chunkEvents : List UndoEvent
  inner : σ

/-- `cmds.undoInfo(openChunk=True, chunkName=name)`. -/
def undoOpenChunk {σ : Type} (s : UndoState σ) (name : String) : UndoState σ :=
  { s with chunkEvents := s.chunkEvents ++ [UndoEvent.opened name] }

/-- `cmds.undoInfo(closeChunk=True)`, recorded with the wrapper's chunk
name. -/
def undoCloseChunk {σ : Type} (s : UndoState σ) (name : String) : UndoState σ :=
  { s with chunkEvents := s.chunkEvents ++ [UndoEvent.closed name] }

/-- The `undoChunkOpened` context manager of undo.py around a body that
may raise (`Except.error`): it queries the undo state once, opens a chunk
when the queue is enabled, runs the body, and — in the `finally` — closes
the chunk when one was opened, re-raising any exception unchanged.
`undoChunk(name)` wraps a function in exactly this context, so the same
definition embeds the decorator. -/
def undoChunkWrapper {σ E A : Type} (name : String)
    (func : UndoState σ → UndoState σ × Except E A) (s : UndoState σ) :
    UndoState σ × Except E A :=
  let undoEnabled := s.undoEnabled
  let s := if undoEnabled then undoOpenChunk s name else s
  let r := func s
  let s := if undoEnabled then undoCloseChunk r.1 name else r.1
  (s, r.2)

/-- A host for the pure-edge-selection scenario: a transform `t` whose
mesh shape is `tShape`, a shape `s`, and three raw edges selected, two of
them referenced through the transform. -/
def rawEdgeHost : Host :=
  { inertHost with
    filterExpand := fun _ m => if m = 32 then ["t.e[1]", "s.e[2]", "t.e[3]"] else [],
    isTransform := fun o => o = "t",
    meshShapes := fun o => if o = "t" then ["tShape"] else [] }

/-- The process state for the pure-edge-selection scenario. -/
def rawEdgeState : ProcState :=
  mkState rawEdgeHost { baseScene with selection := ["t.e[1]", "s.e[2]", "t.e[3]"] }

/-- A mid-session state over two shapes `a` and `b`: each shape gained one
construction-history node (`na`, `nb`) since its snapshot, and the session
records the snapshots, previous UV sets and some subscription handles. -/
def twoShapeState : ProcState :=
  { mkState inertHost
      { baseScene with
        historyOf := fun sh =>
          if sh = "a" then ["ha", "na"]
          else if sh = "b" then ["hb", "nb"] else [] } with
    session :=
      { callbackIDs := [7],
        shapeToEdges := [("a", ["a.e[1]"]), ("b", ["b.e[2]"])],
        history := [["ha"], ["hb"]],
        jobNumbers := [9],
        previousUVSets := ["uva", "uvb"] } }

/-- A wrapped body that always raises, used to exercise the undo
wrapper. -/
def raisingBody (t : UndoState Nat) : UndoState Nat × Except String Nat :=
  (t, Except.error "boom")

/-- A starting state for the undo wrapper with the undo queue enabled. -/
def undoStart : UndoState Nat :=
  { undoEnabled := true, chunkEvents := [], inner := 0 }

end FillSel

namespace FillSel

/-- Frame fact: `_changeSelectType` only touches the select-type and
hilite parts of the scene. -/
@[simp] theorem changeSelectType_host (st : ProcState) (shapes : Option (List String))
    (type_ : String) : (changeSelectType st shapes type_).host = st.host := by
  cases shapes <;> simp [changeSelectType, apply_ite]

/-- Frame fact: `_changeSelectType` preserves the session. -/
@[simp] theorem changeSelectType_session (st : ProcState) (shapes : Option (List String))
    (type_ : String) : (changeSelectType st shapes type_).session = st.session := by
  cases shapes <;> simp [changeSelectType, apply_ite]

/-- Frame fact: `_changeSelectType` preserves the deferred queue. -/
@[simp] theorem changeSelectType_deferred (st : ProcState) (shapes : Option (List String))
    (type_ : String) : (changeSelectType st shapes type_).deferred = st.deferred := by
  cases shapes <;> simp [changeSelectType, apply_ite]

/-- Frame fact: `_changeSelectType` preserves the trace. -/
@[simp] theorem changeSelectType_trace (st : ProcState) (shapes : Option (List String))
    (type_ : String) : (changeSelectType st shapes type_).trace = st.trace := by
  cases shapes <;> simp [changeSelectType, apply_ite]

/-- Frame fact: `_changeSelectType` preserves the warnings. -/
@[simp] theorem changeSelectType_warnings (st : ProcState) (shapes : Option (List String))
    (type_ : String) : (changeSelectType st shapes type_).warnings = st.warnings := by
  cases shapes <;> simp [changeSelectType, apply_ite]

/-- Frame fact: `_changeSelectType` preserves the callback registry. -/
@[simp] theorem changeSelectType_liveCallbacks (st : ProcState)
    (shapes : Option (List String)) (type_ : String) :
    (changeSelectType st shapes type_).liveCallbacks = st.liveCallbacks := by
  cases shapes <;> simp [changeSelectType, apply_ite]

/-- Frame fact: `_changeSelectType` preserves the job registry. -/
@[simp] theorem changeSelectType_liveJobs (st : ProcState)
    (shapes : Option (List String)) (type_ : String) :
    (changeSelectType st shapes type_).liveJobs = st.liveJobs := by
  cases shapes <;> simp [changeSelectType, apply_ite]

/-- Frame fact: `_changeSelectType` preserves the release records. -/
@[simp] theorem changeSelectType_removedCallbacks (st : ProcState)
    (shapes : Option (List String)) (type_ : String) :
    (changeSelectType st shapes type_).removedCallbacks = st.removedCallbacks := by
  cases shapes <;> simp [changeSelectType, apply_ite]

/-- Frame fact: `_changeSelectType` preserves the kill records. -/
@[simp] theorem changeSelectType_killedJobs (st : ProcState)
    (shapes : Option (List String)) (type_ : String) :
    (changeSelectType st shapes type_).killedJobs = st.killedJobs := by
  cases shapes <;> simp [changeSelectType, apply_ite]

/-- Frame fact: `_changeSelectType` preserves the id allocators. -/
@[simp] theorem changeSelectType_nextCallbackID (st : ProcState)
    (shapes : Option (List String)) (type_ : String) :
    (changeSelectType st shapes type_).nextCallbackID = st.nextCallbackID := by
  cases shapes <;> simp [changeSelectType, apply_ite]

/-- Frame fact: `_changeSelectType` preserves the job allocator. -/
@[simp] theorem changeSelectType_nextJobNumber (st : ProcState)
    (shapes : Option (List String)) (type_ : String) :
    (changeSelectType st shapes type_).nextJobNumber = st.nextJobNumber := by
  cases shapes <;> simp [changeSelectType, apply_ite]

/-- Frame fact: `_changeSelectType` preserves the selection. -/
@[simp] theorem changeSelectType_scene_selection (st : ProcState)
    (shapes : Option (List String)) (type_ : String) :
    (changeSelectType st shapes type_).scene.selection = st.scene.selection := by
  cases shapes <;> simp [changeSelectType, apply_ite]

/-- Frame fact: `_changeSelectType` preserves the select mode. -/
@[simp] theorem changeSelectType_scene_objectMode (st : ProcState)
    (shapes : Option (List String)) (type_ : String) :
    (changeSelectType st shapes type_).scene.objectMode = st.scene.objectMode := by
  cases shapes <;> simp [changeSelectType, apply_ite]

/-- Frame fact: `_changeSelectType` preserves the undo-queue state. -/
@[simp] theorem changeSelectType_scene_undoEnabled (st : ProcState)
    (shapes : Option (List String)) (type_ : String) :
    (changeSelectType st shapes type_).scene.undoEnabled = st.scene.undoEnabled := by
  cases shapes <;> simp [changeSelectType, apply_ite]

/-- Frame fact: `_changeSelectType` preserves construction history. -/
@[simp] theorem changeSelectType_scene_historyOf (st : ProcState)
    (shapes : Option (List String)) (type_ : String) :
    (changeSelectType st shapes type_).scene.historyOf = st.scene.historyOf := by
  cases shapes <;> simp [changeSelectType, apply_ite]

/-- Frame fact: `_changeSelectType` preserves current UV sets. -/
@[simp] theorem changeSelectType_scene_currentUV (st : ProcState)
    (shapes : Option (List String)) (type_ : String) :
    (changeSelectType st shapes type_).scene.currentUV = st.scene.currentUV := by
  cases shapes <;> simp [changeSelectType, apply_ite]

/-- Frame fact: `_changeSelectType` preserves UV set contents. -/
@[simp] theorem changeSelectType_scene_uvContent (st : ProcState)
    (shapes : Option (List String)) (type_ : String) :
    (changeSelectType st shapes type_).scene.uvContent = st.scene.uvContent := by
  cases shapes <;> simp [changeSelectType, apply_ite]

/-- Frame fact: `_changeSelectType` preserves the node counter. -/
@[simp] theorem changeSelectType_scene_nextNode (st : ProcState)
    (shapes : Option (List String)) (type_ : String) :
    (changeSelectType st shapes type_).scene.nextNode = st.scene.nextNode := by
  cases shapes <;> simp [changeSelectType, apply_ite]

/-- Value fact: with no shapes supplied, `_changeSelectType` enables the
given type among the component-mode select types. -/
theorem changeSelectType_none_componentTypes (st : ProcState) (type_ : String) :
    (changeSelectType st none type_).scene.componentTypes =
      (if type_ ∈ st.scene.componentTypes then st.scene.componentTypes
        else st.scene.componentTypes ++ [type_]) := by
  by_cases h : st.scene.objectMode <;> simp [changeSelectType, h]

/-- Value fact: in object mode `_changeSelectType` resets the
object-component select types to exactly the given type. -/
theorem changeSelectType_none_objectComponentTypes (st : ProcState) (type_ : String) :
    (changeSelectType st none type_).scene.objectComponentTypes =
      (if st.scene.objectMode then [type_] else st.scene.objectComponentTypes) := by
  by_cases h : st.scene.objectMode <;> simp [changeSelectType, h]

/-- C1 (evidence at the failing input): selecting only the mesh object
`pCube1`, with no component selection, starts a session whose `history`
holds one snapshot while `shapeToEdges` is empty — the collections are not
the same length, violating the claimed alignment invariant after the
`fillSelection` transition completes. -/
theorem fillSelection_misaligns_history :
    (fillSelection objectOnlyState {}).1.session.history.length = 1 ∧
    (fillSelection objectOnlyState {}).1.session.shapeToEdges = [] ∧
    (fillSelection objectOnlyState {}).1.session.isActive = true := by
  decide

/-- C2 (evidence at the failing input): after `fillSelection` records
callback ids 0, 1, 2, a second `fillSelection` while the session is
active (exit condition "selection") overwrites the stored handles, so the
subsequent `clear` releases only ids 3, 4, 5: callback 0 is never passed
to `removeCallback` and is still registered — a handle recorded in
SessionData was dropped without being released. -/
theorem fillSelection_reinvoke_leaks_callbacks :
    (fillSelection edgeSelState {}).1.session.callbackIDs = [0, 1, 2] ∧
    (clearSession (fillSelection (fillSelection edgeSelState {}).1 {}).1).removedCallbacks
      = [3, 4, 5] ∧
    (0 : Nat) ∈ (clearSession (fillSelection (fillSelection edgeSelState {}).1 {}).1).liveCallbacks := by
  decide

/-- C3 (evidence at the failing input): with USE_EXISTING_SEAMS enabled on
a shape whose current UV set `map1` holds seam data, `_prepareUVSets`
returns `map1` as the previous set and marks the scratch set current, but
the scratch set `fillSelectionMap` ends up with its freshly created empty
data rather than a copy of `map1` — the copy call runs after the scratch
set was already made current, so it copies the scratch set onto itself. -/
theorem prepareUVSets_does_not_copy_seams :
    (prepareUVSets seamState seamCfg ["s"]).1.1 = ["map1"] ∧
    (prepareUVSets seamState seamCfg ["s"]).2.scene.currentUV "s" = "fillSelectionMap" ∧
    (prepareUVSets seamState seamCfg ["s"]).2.scene.uvContent "s" "fillSelectionMap" = [] ∧
    (prepareUVSets seamState seamCfg ["s"]).2.scene.uvContent "s" "map1" = ["seamData"] := by
  decide

/-- C6: while a session is active and the exit condition is
"reinvocation", `fillSelection()` is exactly `finalize()`: the whole
resulting process state coincides, so no edge partition is computed and no
SessionData field is touched before the redirect. -/
theorem fillSelection_reinvocation_redirect (st : ProcState) (cfg : Config)
    (hactive : st.session.isActive = true)
    (hexit : cfg.exitCondition = ExitOn.reinvocation) :
    fillSelection st cfg = (finalize st cfg, none) := by
  unfold fillSelection
  rw [if_pos (And.intro hactive hexit)]

/-- Witness for C6 at a concrete active session. -/
theorem fillSelection_reinvocation_redirect_witness :
    (activeState.session.isActive = true ∧
      reinvokeCfg.exitCondition = ExitOn.reinvocation) ∧
    fillSelection activeState reinvokeCfg = (finalize activeState reinvokeCfg, none) :=
  ⟨⟨by decide, rfl⟩,
    fillSelection_reinvocation_redirect activeState reinvokeCfg (by decide) rfl⟩

/-- C8 (counterexample): with a session active and the exit condition
"reinvocation", the current selection yields no valid mesh shapes and yet
`fillSelection` emits no warning (the call is redirected to `finalize`
instead), refuting the claim as stated for every state. -/
theorem fillSelection_no_shapes_claim_cex :
    getSelectedShapes activeState = [] ∧
    (fillSelection activeState reinvokeCfg).1.warnings = activeState.warnings ∧
    (fillSelection activeState reinvokeCfg).1.deferred ≠ activeState.deferred := by
  decide

/-- C8 (amended): unless the call is redirected to `finalize` (session
active with exit condition "reinvocation"), a selection yielding no valid
mesh shapes makes `fillSelection` emit the warning and return with the
process state otherwise untouched: no SessionData change, no event
subscription, nothing deferred. -/
theorem fillSelection_no_shapes_warns (st : ProcState) (cfg : Config)
    (hnr : ¬(st.session.isActive = true ∧ cfg.exitCondition = ExitOn.reinvocation))
    (hsh : getSelectedShapes st = []) :
    fillSelection st cfg =
      ({ st with warnings :=
          st.warnings ++ ["Please select a polygon mesh or its components."] },
        none) := by
  unfold fillSelection
  rw [if_neg hnr]
  simp only [hsh, warn]
  rfl

/-- Witness for C8 at a concrete Idle state with nothing selected. -/
theorem fillSelection_no_shapes_warns_witness :
    (¬((mkState inertHost baseScene).session.isActive = true ∧
        ({} : Config).exitCondition = ExitOn.reinvocation) ∧
      getSelectedShapes (mkState inertHost baseScene) = []) ∧
    fillSelection (mkState inertHost baseScene) {} =
      ({ mkState inertHost baseScene with
          warnings := (mkState inertHost baseScene).warnings ++
            ["Please select a polygon mesh or its components."] },
        none) :=
  ⟨⟨by decide, by decide⟩,
    fillSelection_no_shapes_warns (mkState inertHost baseScene) {} (by decide) (by decide)⟩

/-- C4 (counterexample): with the component-mode select type set to the
edge type before the session and OUTPUT_TYPE = VERTEX, `finalize` does not
restore the prior select type: the enabled select types change, gaining
the vertex-face type `polymeshVtxFace` (not a vertex type). -/
theorem finalize_does_not_restore_selectType :
    (finalize edgeTypeState vertexCfg).scene.componentTypes ≠
      edgeTypeState.scene.componentTypes ∧
    "polymeshVtxFace" ∈ (finalize edgeTypeState vertexCfg).scene.componentTypes := by
  decide

/-- C4 (amended): `finalize` converts the selection to the configured
output component type and enables the select type matching that output —
`polymeshEdge`, `polymeshFace`, or, for VERTEX, the vertex-face type
`polymeshVtxFace` — preserving the object/component select mode flag; it
does not restore the pre-session select type. -/
theorem finalize_sets_output_selectType (st : ProcState) (cfg : Config) :
    (finalize st cfg).scene.selection
        = st.host.plcc st.scene.selection (outputConvFlags cfg.outputType) ∧
    (finalize st cfg).scene.objectMode = st.scene.objectMode ∧
    (finalize st cfg).scene.componentTypes =
      (if outputSelectType cfg.outputType ∈ st.scene.componentTypes
        then st.scene.componentTypes
        else st.scene.componentTypes ++ [outputSelectType cfg.outputType]) ∧
    (finalize st cfg).scene.objectComponentTypes =
      (if st.scene.objectMode then [outputSelectType cfg.outputType]
        else st.scene.objectComponentTypes) := by
  cases h : st.scene.undoEnabled <;> cases hc : cfg.outputType <;>
    simp [finalize, undoChunkWrapped, finalizeBody, changeSelectType, select,
      defer, pushEvent, outputSelectType, outputConvFlags, h, hc] <;>
    split <;> simp

/-- Decomposition of `finalize`: it equals its synchronous part with the
two cleanup tasks appended to the deferred queue. -/
theorem finalize_decomp (st : ProcState) (cfg : Config) :
    finalize st cfg =
      { finalizeSynchronousSpec st cfg with
          deferred := st.deferred ++ [DeferredTask.cleanUp, DeferredTask.clearSession] } := by
  cases h : st.scene.undoEnabled <;> cases hc : cfg.outputType <;>
    simp [finalize, finalizeSynchronousSpec, undoChunkWrapped, finalizeBody,
      select, defer, pushEvent, h, hc]

/-- The synchronous part of `finalize` leaves the deferred queue alone. -/
theorem finalizeSynchronousSpec_deferred (st : ProcState) (cfg : Config) :
    (finalizeSynchronousSpec st cfg).deferred = st.deferred := by
  cases h : st.scene.undoEnabled <;> cases hc : cfg.outputType <;>
    simp [finalizeSynchronousSpec, undoChunkWrapped, select, pushEvent, h, hc]

/-- C5: within one `finalize` invocation run against an empty deferred
queue, the deferred queue afterwards holds exactly the node cleanup
followed by the session clear, and draining the queue is the same as
running the synchronous part of `finalize` (conversion, select-type
change, and the select call) to completion, then `_cleanUp`, then the
SessionData clear — so all synchronous steps finish before the deferred
cleanup begins, and the cleanup runs before the clear. -/
theorem finalize_defers_cleanup_then_clear (st : ProcState) (cfg : Config)
    (h : st.deferred = []) :
    (finalize st cfg).deferred = [DeferredTask.cleanUp, DeferredTask.clearSession] ∧
    drainDeferred (finalize st cfg) =
      clearSession (cleanUp (finalizeSynchronousSpec st cfg)) := by
  have hd := finalize_decomp st cfg
  have hempty : { finalizeSynchronousSpec st cfg with
      deferred := ([] : List DeferredTask) } = finalizeSynchronousSpec st cfg := by
    have hx : (finalizeSynchronousSpec st cfg).deferred = [] := by
      rw [finalizeSynchronousSpec_deferred, h]
    rw [← hx]
  constructor
  · rw [hd, h]
    rfl
  · rw [hd]
    unfold drainDeferred
    rw [h]
    show List.foldl runTask { finalizeSynchronousSpec st cfg with
      deferred := ([] : List DeferredTask) }
      [DeferredTask.cleanUp, DeferredTask.clearSession] = _
    rw [hempty]
    rfl

/-- Witness for C5 at a concrete state with an empty deferred queue. -/
theorem finalize_defers_cleanup_then_clear_witness :
    (mkState inertHost baseScene).deferred = [] ∧
    ((finalize (mkState inertHost baseScene) {}).deferred
        = [DeferredTask.cleanUp, DeferredTask.clearSession] ∧
      drainDeferred (finalize (mkState inertHost baseScene) {}) =
        clearSession (cleanUp (finalizeSynchronousSpec (mkState inertHost baseScene) {}))) :=
  ⟨rfl, finalize_defers_cleanup_then_clear (mkState inertHost baseScene) {} rfl⟩

/-- Lookup after a `setdefault`-append: the value lands at the end of the
key's list and other keys are untouched. -/
theorem insertAppend_lookup (m : List (String × List String)) (k v k' : String) :
    lookupEdges (insertAppend m k v) k' =
      (if k' = k then lookupEdges m k' ++ [v] else lookupEdges m k') := by
  induction m with
  | nil =>
    by_cases h : k' = k
    · subst h
      simp [insertAppend, lookupEdges]
    · have h2 : ¬(k = k') := fun e => h e.symm
      simp [insertAppend, lookupEdges, h, h2]
  | cons a rest ih =>
    obtain ⟨k₁, vs⟩ := a
    by_cases h1 : k₁ = k
    · subst h1
      by_cases h2 : k' = k₁
      · subst h2
        simp [insertAppend, lookupEdges]
      · have h3 : ¬(k₁ = k') := fun e => h2 e.symm
        simp [insertAppend, lookupEdges, h2, h3]
    · by_cases h2 : k₁ = k'
      · subst h2
        have h3 : ¬(k₁ = k) := h1
        have h4 : ¬(k₁ = k ∨ False) := by simp [h1]
        simp [insertAppend, lookupEdges, h1, fun e => h1 e]
      · simp [insertAppend, lookupEdges, h1, h2, ih]

/-- Keys after a `setdefault`-append: unchanged when the key is present,
appended at the end otherwise. -/
theorem insertAppend_keys (m : List (String × List String)) (k v : String) :
    (insertAppend m k v).map Prod.fst =
      (if k ∈ m.map Prod.fst then m.map Prod.fst else m.map Prod.fst ++ [k]) := by
  induction m with
  | nil => simp [insertAppend]
  | cons a rest ih =>
    obtain ⟨k₁, vs⟩ := a
    by_cases h1 : k₁ = k
    · subst h1
      simp [insertAppend]
    · have h2 : ¬(k = k₁) := fun e => h1 e.symm
      simp only [List.map_cons, insertAppend, if_neg h1, ih, List.mem_cons, h2, false_or]
      by_cases h3 : k ∈ rest.map Prod.fst <;> simp [h3]

/-- Lookup through the partition loop: each shape collects, in encounter
order, the rewritten edges it owns, appended after whatever the
accumulator already held for it. -/
theorem partition_go_lookup (st : ProcState) (E : List String)
    (m : List (String × List String)) (sh : String) :
    lookupEdges (E.foldl (partitionStep st) m) sh =
      lookupEdges m sh ++
        ((E.map (rewrittenEdge st)).filter (fun p => decide (p.1 = sh))).map Prod.snd := by
  induction E generalizing m with
  | nil => simp
  | cons e E ih =>
    rw [List.foldl_cons, ih]
    simp only [partitionStep]
    rw [insertAppend_lookup]
    by_cases h : sh = (rewrittenEdge st e).1
    · subst h
      simp [List.filter_cons, List.append_assoc]
    · have h2 : ¬((rewrittenEdge st e).1 = sh) := fun e' => h e'.symm
      simp [h, h2, List.filter_cons]

/-- Keys through the partition loop: the owning shapes in first-occurrence
order, appended after the accumulator's keys. -/
theorem partition_go_keys (st : ProcState) (E : List String)
    (m : List (String × List String)) :
    (E.foldl (partitionStep st) m).map Prod.fst =
      (E.map (fun e => (rewrittenEdge st e).1)).foldl
        (fun ks k => if k ∈ ks then ks else ks ++ [k]) (m.map Prod.fst) := by
  induction E generalizing m with
  | nil => simp
  | cons e E ih =>
    rw [List.foldl_cons, ih, List.map_cons, List.foldl_cons]
    simp only [partitionStep]
    rw [insertAppend_keys]

/-- C9: for a selection consisting purely of raw edges (the face, vertex
and vertex-face filters are empty, and the host conversion maps an empty
selection to an empty result), the edge partition equals the partition of
exactly the raw edges, for every value of the three conversion-mode
settings; each shape's entry lists, in encounter order, exactly the
selected edges it owns (transform references rewritten to the mesh
shape), and the keys are the owning shapes in first-occurrence order. -/
theorem edges_only_partition (st : ProcState) (cfg : Config)
    (hfaces : st.host.filterExpand st.scene.selection 34 = [])
    (hverts : st.host.filterExpand st.scene.selection 31 = [])
    (hvfs : st.host.filterExpand st.scene.selection 70 = [])
    (hplcc : ∀ flags, st.host.plcc [] flags = []) :
    getEdgesFromSelection st cfg =
      partitionEdgesByShape st (st.host.filterExpand st.scene.selection 32) ∧
    (∀ sh, lookupEdges (getEdgesFromSelection st cfg) sh =
      (((st.host.filterExpand st.scene.selection 32).map (rewrittenEdge st)).filter
        (fun p => decide (p.1 = sh))).map Prod.snd) ∧
    (getEdgesFromSelection st cfg).map Prod.fst =
      ((st.host.filterExpand st.scene.selection 32).map
        (fun e => (rewrittenEdge st e).1)).foldl
        (fun ks k => if k ∈ ks then ks else ks ++ [k]) [] := by
  have hf : getEdgesFromSelectedFaces st cfg = [] := by
    cases hm : cfg.convertFacesTo <;>
      simp [getEdgesFromSelectedFaces, hfaces, hplcc, hm]
  have hv : getEdgesFromSelectedVertices st cfg = [] := by
    cases hm : cfg.convertVerticesTo <;>
      simp [getEdgesFromSelectedVertices, hverts, hplcc, hm]
  have hvf : getEdgesFromSelectedVertexFaces st cfg = [] := by
    cases hm : cfg.convertVertexFacesTo <;>
      simp [getEdgesFromSelectedVertexFaces, hvfs, hplcc, hm]
  have hmain : getEdgesFromSelection st cfg =
      partitionEdgesByShape st (st.host.filterExpand st.scene.selection 32) := by
    simp [getEdgesFromSelection, hf, hv, hvf]
  refine ⟨hmain, fun sh => ?_, ?_⟩
  · rw [hmain]
    have h := partition_go_lookup st (st.host.filterExpand st.scene.selection 32) [] sh
    simpa [partitionEdgesByShape, lookupEdges] using h
  · rw [hmain]
    have h := partition_go_keys st (st.host.filterExpand st.scene.selection 32) []
    simpa [partitionEdgesByShape] using h

/-- Witness for C9 at a concrete pure-edge selection over a transform and
a shape. -/
theorem edges_only_partition_witness :
    (rawEdgeState.host.filterExpand rawEdgeState.scene.selection 34 = [] ∧
      rawEdgeState.host.filterExpand rawEdgeState.scene.selection 31 = [] ∧
      rawEdgeState.host.filterExpand rawEdgeState.scene.selection 70 = [] ∧
      (∀ flags, rawEdgeState.host.plcc [] flags = [])) ∧
    (getEdgesFromSelection rawEdgeState {} =
      partitionEdgesByShape rawEdgeState
        (rawEdgeState.host.filterExpand rawEdgeState.scene.selection 32) ∧
    (∀ sh, lookupEdges (getEdgesFromSelection rawEdgeState {}) sh =
      (((rawEdgeState.host.filterExpand rawEdgeState.scene.selection 32).map
        (rewrittenEdge rawEdgeState)).filter
        (fun p => decide (p.1 = sh))).map Prod.snd) ∧
    (getEdgesFromSelection rawEdgeState {}).map Prod.fst =
      ((rawEdgeState.host.filterExpand rawEdgeState.scene.selection 32).map
        (fun e => (rewrittenEdge rawEdgeState e).1)).foldl
        (fun ks k => if k ∈ ks then ks else ks ++ [k]) []) :=
  ⟨⟨by decide, by decide, by decide, fun _ => rfl⟩,
    edges_only_partition rawEdgeState {} (by decide) (by decide) (by decide)
      (fun _ => rfl)⟩

/-- The history left on a shape by one diff-delete step of `_cleanUp`. -/
theorem delStep_historyOf (s : ProcState) (p : String × List String) (sh : String) :
    (delStep s p).scene.historyOf sh =
      (s.scene.historyOf sh).filter
        (fun n => decide (n ∉ (s.scene.historyOf p.1).filter
          (fun m => decide (m ∉ p.2)))) := rfl

/-- Membership in a shape's history after one diff-delete step. -/
theorem delStep_hist_mem (s : ProcState) (p : String × List String) (sh n : String) :
    n ∈ (delStep s p).scene.historyOf sh ↔
      n ∈ s.scene.historyOf sh ∧ ¬(n ∈ s.scene.historyOf p.1 ∧ n ∉ p.2) := by
  rw [delStep_historyOf]
  simp only [List.mem_filter, decide_eq_true_eq]

/-- The diff-delete loop preserves the session. -/
theorem delLoop_session : ∀ (pairs : List (String × List String)) (s : ProcState),
    (delLoop pairs s).session = s.session := by
  intro pairs
  induction pairs with
  | nil => intro s; rfl
  | cons p ps ih => intro s; exact ih (delStep s p)

/-- The diff-delete loop preserves the current UV sets. -/
theorem delLoop_currentUV : ∀ (pairs : List (String × List String)) (s : ProcState),
    (delLoop pairs s).scene.currentUV = s.scene.currentUV := by
  intro pairs
  induction pairs with
  | nil => intro s; rfl
  | cons p ps ih => intro s; exact ih (delStep s p)

/-- The diff-delete loop preserves the callback registry. -/
theorem delLoop_liveCallbacks : ∀ (pairs : List (String × List String)) (s : ProcState),
    (delLoop pairs s).liveCallbacks = s.liveCallbacks := by
  intro pairs
  induction pairs with
  | nil => intro s; rfl
  | cons p ps ih => intro s; exact ih (delStep s p)

/-- The diff-delete loop preserves the job registry. -/
theorem delLoop_liveJobs : ∀ (pairs : List (String × List String)) (s : ProcState),
    (delLoop pairs s).liveJobs = s.liveJobs := by
  intro pairs
  induction pairs with
  | nil => intro s; rfl
  | cons p ps ih => intro s; exact ih (delStep s p)

/-- The diff-delete loop only ever removes history entries. -/
theorem delLoop_hist_subset : ∀ (pairs : List (String × List String)) (s : ProcState)
    (sh n : String), n ∈ (delLoop pairs s).scene.historyOf sh → n ∈ s.scene.historyOf sh := by
  intro pairs
  induction pairs with
  | nil => intro s sh n h; exact h
  | cons p ps ih =>
    intro s sh n h
    exact ((delStep_hist_mem s p sh n).mp (ih (delStep s p) sh n h)).1

/-- A shape none of whose history entries are new nodes of any processed
pair keeps its history through the diff-delete loop. -/
theorem delLoop_untouched : ∀ (pairs : List (String × List String)) (s : ProcState)
    (sh : String),
    (∀ p ∈ pairs, ∀ n, n ∈ s.scene.historyOf p.1 → n ∉ p.2 → n ∉ s.scene.historyOf sh) →
    (delLoop pairs s).scene.historyOf sh = s.scene.historyOf sh := by
  intro pairs
  induction pairs with
  | nil => intro s sh _; rfl
  | cons p ps ih =>
    intro s sh hyp
    have hstep : (delStep s p).scene.historyOf sh = s.scene.historyOf sh := by
      rw [delStep_historyOf]
      apply List.filter_eq_self.mpr
      intro n hn
      have hnot : n ∉ (s.scene.historyOf p.1).filter (fun m => decide (m ∉ p.2)) := by
        intro hcon
        have h1 := List.mem_filter.mp hcon
        have h2 : n ∉ p.2 := by simpa using h1.2
        exact hyp p (List.mem_cons_self p ps) n h1.1 h2 hn
      exact decide_eq_true hnot
    have htail : ∀ q ∈ ps, ∀ n, n ∈ (delStep s p).scene.historyOf q.1 → n ∉ q.2 →
        n ∉ (delStep s p).scene.historyOf sh := by
      intro q hq n hn hnq
      have hn' : n ∈ s.scene.historyOf q.1 := ((delStep_hist_mem s p q.1 n).mp hn).1
      have hnot := hyp q (List.mem_cons_of_mem p hq) n hn' hnq
      intro hcon
      exact hnot ((delStep_hist_mem s p sh n).mp hcon).1
    exact (ih (delStep s p) sh htail).trans hstep

/-- Exactness of the diff-delete loop: when the shapes are distinct and no
shape's new nodes appear in another processed shape's history, each
processed shape ends with exactly the snapshot part of its history — the
nodes absent from the snapshot, and only those, are deleted. -/
theorem delLoop_exact : ∀ (pairs : List (String × List String)) (s : ProcState),
    (pairs.map Prod.fst).Nodup →
    (∀ p ∈ pairs, ∀ q ∈ pairs, p.1 ≠ q.1 → ∀ n, n ∈ s.scene.historyOf p.1 → n ∉ p.2 →
      n ∉ s.scene.historyOf q.1) →
    ∀ p ∈ pairs, (delLoop pairs s).scene.historyOf p.1 =
      (s.scene.historyOf p.1).filter (fun n => decide (n ∈ p.2)) := by
  intro pairs
  induction pairs with
  | nil => intro s _ _ p hp; exact absurd hp (List.not_mem_nil p)
  | cons p₀ ps ih =>
    intro s hnd hdisj p hp
    have hnd' : p₀.1 ∉ ps.map Prod.fst ∧ (ps.map Prod.fst).Nodup :=
      List.nodup_cons.mp (by simpa using hnd)
    rcases List.mem_cons.mp hp with heq | hp'
    · subst heq
      have hstep : (delStep s p).scene.historyOf p.1 =
          (s.scene.historyOf p.1).filter (fun n => decide (n ∈ p.2)) := by
        rw [delStep_historyOf]
        apply List.filter_congr
        intro n hn
        by_cases hmem : n ∈ p.2
        · have hnot : n ∉ (s.scene.historyOf p.1).filter (fun m => decide (m ∉ p.2)) := by
            intro hcon
            have h1 := List.mem_filter.mp hcon
            have h2 : n ∉ p.2 := by simpa using h1.2
            exact h2 hmem
          rw [decide_eq_true hnot, decide_eq_true hmem]
        · have hin : n ∈ (s.scene.historyOf p.1).filter (fun m => decide (m ∉ p.2)) :=
            List.mem_filter.mpr ⟨hn, by simpa using hmem⟩
          rw [decide_eq_false (not_not_intro hin), decide_eq_false hmem]
      have huntouched : (delLoop ps (delStep s p)).scene.historyOf p.1 =
          (delStep s p).scene.historyOf p.1 := by
        apply delLoop_untouched
        intro q hq n hn hnq
        have hq1 : q.1 ≠ p.1 := by
          intro he
          exact hnd'.1 (he ▸ List.mem_map_of_mem Prod.fst hq)
        have hn' : n ∈ s.scene.historyOf q.1 := ((delStep_hist_mem s p q.1 n).mp hn).1
        have hnot := hdisj q (List.mem_cons_of_mem p hq) p (List.mem_cons_self p ps)
          hq1 n hn' hnq
        intro hcon
        exact hnot ((delStep_hist_mem s p p.1 n).mp hcon).1
      exact huntouched.trans hstep
    · have hne : p₀.1 ≠ p.1 := by
        intro he
        exact hnd'.1 (he ▸ List.mem_map_of_mem Prod.fst hp')
      have hdisj' : ∀ a ∈ ps, ∀ b ∈ ps, a.1 ≠ b.1 → ∀ n,
          n ∈ (delStep s p₀).scene.historyOf a.1 → n ∉ a.2 →
          n ∉ (delStep s p₀).scene.historyOf b.1 := by
        intro a ha b hb hab n hn hna
        have hn' := ((delStep_hist_mem s p₀ a.1 n).mp hn).1
        have hnot := hdisj a (List.mem_cons_of_mem p₀ ha) b (List.mem_cons_of_mem p₀ hb)
          hab n hn' hna
        intro hcon
        exact hnot ((delStep_hist_mem s p₀ b.1 n).mp hcon).1
      refine (ih (delStep s p₀) hnd'.2 hdisj' p hp').trans ?_
      rw [delStep_historyOf, List.filter_filter]
      apply List.filter_congr
      intro n hn
      by_cases hmem : n ∈ p.2
      · have hnot : n ∉ (s.scene.historyOf p₀.1).filter (fun m => decide (m ∉ p₀.2)) := by
          intro hcon
          have h1 := List.mem_filter.mp hcon
          have h2 : n ∉ p₀.2 := by simpa using h1.2
          exact hdisj p₀ (List.mem_cons_self p₀ ps) p (List.mem_cons_of_mem p₀ hp')
            hne n h1.1 h2 hn
        rw [decide_eq_true hmem, decide_eq_true hnot]
        rfl
      · rw [decide_eq_false hmem]
        simp

/-- The value a shape's current UV set takes after one restoration step. -/
theorem uvStep_currentUV (s : ProcState) (q : String × String) (k : String) :
    (uvStep s q).scene.currentUV k = (if k = q.1 then q.2 else s.scene.currentUV k) := rfl

/-- The UV restoration loop preserves the session. -/
theorem uvLoop_session : ∀ (qs : List (String × String)) (s : ProcState),
    (uvLoop qs s).session = s.session := by
  intro qs
  induction qs with
  | nil => intro s; rfl
  | cons q qs ih => intro s; exact ih (uvStep s q)

/-- The UV restoration loop preserves construction history. -/
theorem uvLoop_historyOf : ∀ (qs : List (String × String)) (s : ProcState),
    (uvLoop qs s).scene.historyOf = s.scene.historyOf := by
  intro qs
  induction qs with
  | nil => intro s; rfl
  | cons q qs ih => intro s; exact ih (uvStep s q)

/-- The UV restoration loop preserves the callback registry. -/
theorem uvLoop_liveCallbacks : ∀ (qs : List (String × String)) (s : ProcState),
    (uvLoop qs s).liveCallbacks = s.liveCallbacks := by
  intro qs
  induction qs with
  | nil => intro s; rfl
  | cons q qs ih => intro s; exact ih (uvStep s q)

/-- The UV restoration loop preserves the job registry. -/
theorem uvLoop_liveJobs : ∀ (qs : List (String × String)) (s : ProcState),
    (uvLoop qs s).liveJobs = s.liveJobs := by
  intro qs
  induction qs with
  | nil => intro s; rfl
  | cons q qs ih => intro s; exact ih (uvStep s q)

/-- A shape not named in the restoration pairs keeps its current UV set. -/
theorem uvLoop_preserve : ∀ (qs : List (String × String)) (s : ProcState) (k : String),
    k ∉ qs.map Prod.fst → (uvLoop qs s).scene.currentUV k = s.scene.currentUV k := by
  intro qs
  induction qs with
  | nil => intro s k _; rfl
  | cons q qs ih =>
    intro s k hk
    have hk1 : ¬(k = q.1) := fun e => hk (by simp [e])
    have hk2 : k ∉ qs.map Prod.fst := fun hc => hk (List.mem_cons_of_mem _ hc)
    exact (ih (uvStep s q) k hk2).trans (by rw [uvStep_currentUV]; simp [hk1])

/-- Exactness of the UV restoration loop: with distinct shapes, each pair's
shape ends with exactly its recorded previous UV set current. -/
theorem uvLoop_exact : ∀ (qs : List (String × String)) (s : ProcState),
    (qs.map Prod.fst).Nodup →
    ∀ q ∈ qs, (uvLoop qs s).scene.currentUV q.1 = q.2 := by
  intro qs
  induction qs with
  | nil => intro s _ q hq; exact absurd hq (List.not_mem_nil q)
  | cons q₀ qs ih =>
    intro s hnd q hq
    have hnd' : q₀.1 ∉ qs.map Prod.fst ∧ (qs.map Prod.fst).Nodup :=
      List.nodup_cons.mp (by simpa using hnd)
    rcases List.mem_cons.mp hq with heq | hq'
    · subst heq
      exact (uvLoop_preserve qs (uvStep s q) q.1 hnd'.1).trans
        (by rw [uvStep_currentUV]; simp)
    · exact ih (uvStep s q₀) hnd'.2 q hq'

/-- What the body of `_cleanUp` does, given the alignment the claim
presumes (snapshots and previous UV sets index-aligned with the
`shapeToEdges` keys), distinct session shapes, and session-created nodes
not shared between shapes: each session shape keeps exactly the
snapshot part of its history (so exactly the nodes it gained since the
snapshot are deleted), each shape's previous UV set is current again, and
the session's `shapeToEdges`, `history`, `previousUVSets` and subscription
handles are untouched. -/
theorem cleanUpBody_spec (s : ProcState)
    (hlen : s.session.history.length = (sessionShapes s.session).length)
    (hprev : s.session.previousUVSets.length = (sessionShapes s.session).length)
    (hnd : (sessionShapes s.session).Nodup)
    (hdisj : ∀ p ∈ (sessionShapes s.session).zip s.session.history,
        ∀ q ∈ (sessionShapes s.session).zip s.session.history,
        p.1 ≠ q.1 → ∀ n, n ∈ s.scene.historyOf p.1 → n ∉ p.2 →
          n ∉ s.scene.historyOf q.1) :
    (∀ p ∈ (sessionShapes s.session).zip s.session.history,
        (cleanUpBody s).scene.historyOf p.1 =
          (s.scene.historyOf p.1).filter (fun n => decide (n ∈ p.2))) ∧
    (∀ q ∈ (sessionShapes s.session).zip s.session.previousUVSets,
        (cleanUpBody s).scene.currentUV q.1 = q.2) ∧
    (cleanUpBody s).session.shapeToEdges = s.session.shapeToEdges ∧
    (cleanUpBody s).session.history = s.session.history ∧
    (cleanUpBody s).session.previousUVSets = s.session.previousUVSets ∧
    (cleanUpBody s).session.callbackIDs = s.session.callbackIDs ∧
    (cleanUpBody s).session.jobNumbers = s.session.jobNumbers ∧
    (cleanUpBody s).liveCallbacks = s.liveCallbacks ∧
    (cleanUpBody s).liveJobs = s.liveJobs := by
  have hfsth : ((sessionShapes s.session).zip s.session.history).map Prod.fst
      = sessionShapes s.session := List.map_fst_zip _ _ hlen.ge
  have hfstp : ((sessionShapes s.session).zip s.session.previousUVSets).map Prod.fst
      = sessionShapes s.session := List.map_fst_zip _ _ hprev.ge
  have hQ : cleanUpBody s =
      uvLoop ((sessionShapes s.session).zip s.session.previousUVSets)
        (delLoop ((sessionShapes s.session).zip s.session.history)
          { pushEvent s Event.cleanUpStarted with
            session := { s.session with selection := s.scene.selection } }) := by
    simp only [cleanUpBody]
    rw [delLoop_session]
    rfl
  refine ⟨?_, ?_, ?_, ?_, ?_, ?_, ?_, ?_, ?_⟩
  · intro p hp
    rw [hQ, uvLoop_historyOf]
    exact delLoop_exact ((sessionShapes s.session).zip s.session.history)
      { pushEvent s Event.cleanUpStarted with
        session := { s.session with selection := s.scene.selection } }
      (by rw [hfsth]; exact hnd) hdisj p hp
  · intro q hq
    rw [hQ]
    exact uvLoop_exact _ _ (by rw [hfstp]; exact hnd) q hq
  · rw [hQ, uvLoop_session, delLoop_session]
  · rw [hQ, uvLoop_session, delLoop_session]
  · rw [hQ, uvLoop_session, delLoop_session]
  · rw [hQ, uvLoop_session, delLoop_session]
  · rw [hQ, uvLoop_session, delLoop_session]
  · rw [hQ, uvLoop_liveCallbacks, delLoop_liveCallbacks]
    rfl
  · rw [hQ, uvLoop_liveJobs, delLoop_liveJobs]
    rfl

/-- The scene `_cleanUp` produces is its body's scene (the undo-chunk
wrapper only records trace events). -/
theorem cleanUp_scene (st : ProcState) :
    (cleanUp st).scene = (cleanUpBody (if st.scene.undoEnabled
      then pushEvent st (Event.openChunk "Clean up changes from fill selection")
      else st)).scene := by
  simp only [cleanUp, undoChunkWrapped]
  split <;> rfl

/-- The session `_cleanUp` produces is its body's session. -/
theorem cleanUp_session (st : ProcState) :
    (cleanUp st).session = (cleanUpBody (if st.scene.undoEnabled
      then pushEvent st (Event.openChunk "Clean up changes from fill selection")
      else st)).session := by
  simp only [cleanUp, undoChunkWrapped]
  split <;> rfl

/-- The callback registry `_cleanUp` produces is its body's. -/
theorem cleanUp_liveCallbacks (st : ProcState) :
    (cleanUp st).liveCallbacks = (cleanUpBody (if st.scene.undoEnabled
      then pushEvent st (Event.openChunk "Clean up changes from fill selection")
      else st)).liveCallbacks := by
  simp only [cleanUp, undoChunkWrapped]
  split <;> rfl

/-- The job registry `_cleanUp` produces is its body's. -/
theorem cleanUp_liveJobs (st : ProcState) :
    (cleanUp st).liveJobs = (cleanUpBody (if st.scene.undoEnabled
      then pushEvent st (Event.openChunk "Clean up changes from fill selection")
      else st)).liveJobs := by
  simp only [cleanUp, undoChunkWrapped]
  split <;> rfl

/-- C7: given the alignment the claim presumes (history snapshots and
previous UV sets index-aligned with the `shapeToEdges` keys), distinct
session shapes, and session-created nodes not shared between shapes,
`_cleanUp` deletes for each session shape exactly the construction-history
nodes present at cleanup time but absent from that shape's snapshot (the
shape retains exactly the snapshot part of its history), re-marks the
shape's previous UV set current, and leaves the session uncleared:
`shapeToEdges`, `history`, `previousUVSets` and both subscription-handle
collections are unchanged, and no handle is deregistered. -/
theorem cleanUp_diffs_and_restores (st : ProcState)
    (hlen : st.session.history.length = (sessionShapes st.session).length)
    (hprev : st.session.previousUVSets.length = (sessionShapes st.session).length)
    (hnd : (sessionShapes st.session).Nodup)
    (hdisj : ∀ p ∈ (sessionShapes st.session).zip st.session.history,
        ∀ q ∈ (sessionShapes st.session).zip st.session.history,
        p.1 ≠ q.1 → ∀ n, n ∈ st.scene.historyOf p.1 → n ∉ p.2 →
          n ∉ st.scene.historyOf q.1) :
    (∀ p ∈ (sessionShapes st.session).zip st.session.history,
        (cleanUp st).scene.historyOf p.1 =
          (st.scene.historyOf p.1).filter (fun n => decide (n ∈ p.2))) ∧
    (∀ q ∈ (sessionShapes st.session).zip st.session.previousUVSets,
        (cleanUp st).scene.currentUV q.1 = q.2) ∧
    (cleanUp st).session.shapeToEdges = st.session.shapeToEdges ∧
    (cleanUp st).session.history = st.session.history ∧
    (cleanUp st).session.previousUVSets = st.session.previousUVSets ∧
    (cleanUp st).session.callbackIDs = st.session.callbackIDs ∧
    (cleanUp st).session.jobNumbers = st.session.jobNumbers ∧
    (cleanUp st).liveCallbacks = st.liveCallbacks ∧
    (cleanUp st).liveJobs = st.liveJobs := by
  have hs : (if st.scene.undoEnabled
      then pushEvent st (Event.openChunk "Clean up changes from fill selection")
      else st).session = st.session := by split <;> rfl
  have hsc : (if st.scene.undoEnabled
      then pushEvent st (Event.openChunk "Clean up changes from fill selection")
      else st).scene = st.scene := by split <;> rfl
  have hlc : (if st.scene.undoEnabled
      then pushEvent st (Event.openChunk "Clean up changes from fill selection")
      else st).liveCallbacks = st.liveCallbacks := by split <;> rfl
  have hlj : (if st.scene.undoEnabled
      then pushEvent st (Event.openChunk "Clean up changes from fill selection")
      else st).liveJobs = st.liveJobs := by split <;> rfl
  obtain ⟨c1, c2, c3, c4, c5, c6, c7, c8, c9⟩ :=
    cleanUpBody_spec (if st.scene.undoEnabled
      then pushEvent st (Event.openChunk "Clean up changes from fill selection")
      else st)
      (by rw [hs]; exact hlen) (by rw [hs]; exact hprev) (by rw [hs]; exact hnd)
      (by rw [hs, hsc]; exact hdisj)
  refine ⟨?_, ?_, ?_, ?_, ?_, ?_, ?_, ?_, ?_⟩
  · intro p hp
    rw [cleanUp_scene]
    have h := c1 p (by rw [hs]; exact hp)
    rw [hsc] at h
    exact h
  · intro q hq
    rw [cleanUp_scene]
    exact c2 q (by rw [hs]; exact hq)
  · rw [cleanUp_session]
    rw [hs] at c3
    exact c3
  · rw [cleanUp_session]
    rw [hs] at c4
    exact c4
  · rw [cleanUp_session]
    rw [hs] at c5
    exact c5
  · rw [cleanUp_session]
    rw [hs] at c6
    exact c6
  · rw [cleanUp_session]
    rw [hs] at c7
    exact c7
  · rw [cleanUp_liveCallbacks]
    rw [hlc] at c8
    exact c8
  · rw [cleanUp_liveJobs]
    rw [hlj] at c9
    exact c9

/-- Witness for C7 on a concrete two-shape session in which each shape
gained one node since its snapshot. -/
theorem cleanUp_diffs_and_restores_witness :
    (twoShapeState.session.history.length
        = (sessionShapes twoShapeState.session).length ∧
      twoShapeState.session.previousUVSets.length
        = (sessionShapes twoShapeState.session).length ∧
      (sessionShapes twoShapeState.session).Nodup ∧
      (∀ p ∈ (sessionShapes twoShapeState.session).zip twoShapeState.session.history,
        ∀ q ∈ (sessionShapes twoShapeState.session).zip twoShapeState.session.history,
        p.1 ≠ q.1 → ∀ n, n ∈ twoShapeState.scene.historyOf p.1 → n ∉ p.2 →
          n ∉ twoShapeState.scene.historyOf q.1)) ∧
    ((∀ p ∈ (sessionShapes twoShapeState.session).zip twoShapeState.session.history,
        (cleanUp twoShapeState).scene.historyOf p.1 =
          (twoShapeState.scene.historyOf p.1).filter (fun n => decide (n ∈ p.2))) ∧
      (∀ q ∈ (sessionShapes twoShapeState.session).zip
          twoShapeState.session.previousUVSets,
        (cleanUp twoShapeState).scene.currentUV q.1 = q.2) ∧
      (cleanUp twoShapeState).session.shapeToEdges = twoShapeState.session.shapeToEdges ∧
      (cleanUp twoShapeState).session.history = twoShapeState.session.history ∧
      (cleanUp twoShapeState).session.previousUVSets
        = twoShapeState.session.previousUVSets ∧
      (cleanUp twoShapeState).session.callbackIDs = twoShapeState.session.callbackIDs ∧
      (cleanUp twoShapeState).session.jobNumbers = twoShapeState.session.jobNumbers ∧
      (cleanUp twoShapeState).liveCallbacks = twoShapeState.liveCallbacks ∧
      (cleanUp twoShapeState).liveJobs = twoShapeState.liveJobs) :=
  ⟨⟨by decide, by decide, by decide, by decide⟩,
    cleanUp_diffs_and_restores twoShapeState (by decide) (by decide) (by decide)
      (by decide)⟩

/-- C10: for every wrapped body that issues no chunk operations of its
own, if the undo queue is enabled at entry the wrapper opens one chunk and
closes it exactly once — also when the body raises — and returns the
body's result or exception unchanged; if the queue is disabled at entry,
the wrapper is the body itself: no chunk is opened or closed. -/
theorem undoChunk_closes_once_and_propagates {σ E A : Type} (name : String)
    (func : UndoState σ → UndoState σ × Except E A) (s : UndoState σ)
    (hfunc : ∀ t, ((func t).1).chunkEvents = t.chunkEvents) :
    (s.undoEnabled = true →
      ((undoChunkWrapper name func s).1.chunkEvents
          = s.chunkEvents ++ [UndoEvent.opened name, UndoEvent.closed name] ∧
        (undoChunkWrapper name func s).2 = (func (undoOpenChunk s name)).2)) ∧
    (s.undoEnabled = false →
      undoChunkWrapper name func s = func s) := by
  constructor
  · intro h
    constructor
    · simp [undoChunkWrapper, h, undoCloseChunk, hfunc, undoOpenChunk]
    · simp [undoChunkWrapper, h]
  · intro h
    simp [undoChunkWrapper, h]

/-- Witness for C10 with a raising body and the undo queue enabled. -/
theorem undoChunk_closes_once_and_propagates_witness :
    (∀ t, ((raisingBody t).1).chunkEvents = t.chunkEvents) ∧
    ((undoStart.undoEnabled = true →
      ((undoChunkWrapper "w" raisingBody undoStart).1.chunkEvents
          = undoStart.chunkEvents ++ [UndoEvent.opened "w", UndoEvent.closed "w"] ∧
        (undoChunkWrapper "w" raisingBody undoStart).2
          = (raisingBody (undoOpenChunk undoStart "w")).2)) ∧
      (undoStart.undoEnabled = false →
        undoChunkWrapper "w" raisingBody undoStart = raisingBody undoStart)) :=
  ⟨fun _ => rfl,
    undoChunk_closes_once_and_propagates "w" raisingBody undoStart (fun _ => rfl)⟩

end FillSel
